import Mathlib

/-!
Verification of the Email-Reports PDF extraction and client matching core.

This file shallowly embeds the two core modules of the repository —
`src/client_database.py` (fuzzy client matching) and `src/pdf_extractor.py`
(report-type classification, date extraction, business-name extraction and
the three-line KPI parser) — as executable Lean definitions, and proves the
specification claims about them.

Python strings are modelled as `List Char`; Python regular expressions used
by the source are compiled by hand into deterministic scanners (each regex
in the source is simple enough that greedy matching with the local
backtracking noted at each definition coincides with Python's semantics).
Floating-point similarity scores are modelled as rationals.
-/

namespace EmailReports

/-- Python strings are lists of characters. -/
abbrev Str := List Char

/-- Python `str.strip()` / `\s` whitespace class (ASCII): space, tab,
newline, carriage return, vertical tab, form feed. -/
def isPySpace (c : Char) : Bool :=
  c = ' ' || c = '\t' || c = '\n' || c = '\r' || c = Char.ofNat 11 || c = Char.ofNat 12

/-- ASCII digit test (regex `[0-9]` / `\d`). -/
def isDigitCh (c : Char) : Bool := '0' ≤ c && c ≤ '9'

/-- Regex `\w` word character: ASCII letter, digit or underscore. -/
def isWordCh (c : Char) : Bool := c.isAlpha || isDigitCh c || c = '_'

/-- Python `str.lower()` (ASCII; all inputs in the claims are ASCII). -/
def toLowerStr (s : Str) : Str := s.map Char.toLower

/-- Python `str.strip()`: drop leading and trailing whitespace. -/
def strip (s : Str) : Str :=
  ((s.dropWhile isPySpace).reverse.dropWhile isPySpace).reverse

/-- Python `haystack.find(needle)` (and `needle in haystack` as `isSome`):
index of the first occurrence of `needle` as a contiguous substring. -/
def findSub : Str → Str → Option Nat
  | [], needle => if needle.isEmpty then some 0 else none
  | c :: t, needle =>
    if needle.isPrefixOf (c :: t) then some 0 else (findSub t needle).map (· + 1)

/-- Python `needle in haystack` substring test. -/
def containsSub (hay needle : Str) : Bool := (findSub hay needle).isSome

/-- Python `text.split(sep)` for a single-character separator: keeps empty
pieces, accumulator auxiliary. -/
def splitChAux (sep : Char) : Str → Str → List Str
  | [], acc => [acc.reverse]
  | c :: t, acc =>
    if c = sep then acc.reverse :: splitChAux sep t [] else splitChAux sep t (c :: acc)

/-- Python `text.split('\n')`. -/
def splitNl (s : Str) : List Str := splitChAux '\n' s []

/-- Python `str.split()` with no argument: split on whitespace runs,
dropping empty pieces (used by the token-sort scorer). -/
def splitWsAux : Str → Str → List Str
  | [], acc => if acc.isEmpty then [] else [acc.reverse]
  | c :: t, acc =>
    if isPySpace c then
      (if acc.isEmpty then splitWsAux t [] else acc.reverse :: splitWsAux t [])
    else splitWsAux t (c :: acc)

/-- Python `str.split()` with no argument. -/
def splitWs (s : Str) : List Str := splitWsAux s []

/-- Python code-point lexicographic `≤` on strings (tuple/string sort order). -/
def lexLeCh : Str → Str → Bool
  | [], _ => true
  | _ :: _, [] => false
  | a :: as, b :: bs =>
    if a.toNat < b.toNat then true
    else if b.toNat < a.toNat then false
    else lexLeCh as bs

/-- `', '.join(tokens)`-style join with a single space separator. -/
def joinSpace : List Str → Str
  | [] => []
  | [w] => w
  | w :: ws => w ++ ' ' :: joinSpace ws

/-- `', '.join(names)` (used by the missing-KPI error message). -/
def joinCommaSpace : List Str → Str
  | [] => []
  | [w] => w
  | w :: ws => w ++ ',' :: ' ' :: joinCommaSpace ws

/-- Decimal digit characters of a natural number (for `strftime`). -/
def natToStr (n : Nat) : Str := Nat.toDigits 10 n

/-- Zero-padded two-digit field of `strftime` (`%m`, `%d`). -/
def pad2 (n : Nat) : Str := if n < 10 then '0' :: natToStr n else natToStr n

/- ## Client database (`src/client_database.py`)

A CSV row is modelled as its `Client-Name` value plus an opaque tag standing
for the remaining columns (contact fields, introduction texts), which the
matching code never reads. Scores are rationals (the library returns floats
in [0, 100]). The rapidfuzz scorer is an explicit function parameter, as the
spec requires of any substituted string-similarity function; the library's
`token_sort_ratio` itself is modelled below as `tokenSortRatio`. -/

/-- One loaded CSV row: the raw `Client-Name` cell and an opaque tag for the
other columns. -/
structure Client where
  clientName : Str
  tag : Nat := 0
deriving DecidableEq

/-- Longest-common-subsequence length, by structural recursion on a fuel
bound (every recursive call shortens the combined length by at least one, so
`|a| + |b|` fuel is exact). -/
def lcsLenAux : Nat → Str → Str → Nat
  | 0, _, _ => 0
  | _, [], _ => 0
  | _, _ :: _, [] => 0
  | fuel + 1, a :: as, b :: bs =>
    if a = b then lcsLenAux fuel as bs + 1
    else max (lcsLenAux fuel as (b :: bs)) (lcsLenAux fuel (a :: as) bs)

/-- `fuzz.ratio`: normalised indel similarity × 100. The indel distance of
two strings is `|a| + |b| - 2·lcs a b`. -/
def lcsLen (a b : Str) : Nat := lcsLenAux (a.length + b.length) a b

/-- `rapidfuzz.fuzz.ratio` on two strings, as a rational in [0, 100]:
`100 · (1 - indel/(|a|+|b|)) = (100 · 2 · lcs) / (|a| + |b|)`, written with
`mkRat` (the rational `n / d`). Two empty strings score 100. -/
def fuzzRatio (a b : Str) : ℚ :=
  if a.isEmpty && b.isEmpty then 100
  else mkRat (100 * (2 * lcsLen a b)) (a.length + b.length)

/-- `rapidfuzz.fuzz.token_sort_ratio`: split both strings on whitespace,
sort the tokens lexicographically, join with single spaces, take `ratio`. -/
def tokenSortRatio (a b : Str) : ℚ :=
  fuzzRatio (joinSpace (List.insertionSort (fun x y => lexLeCh x y = true) (splitWs a)))
            (joinSpace (List.insertionSort (fun x y => lexLeCh x y = true) (splitWs b)))

/-- Python `int()` on a similarity score (truncation; scores are ≥ 0). -/
def pyInt (q : ℚ) : Int := if 0 ≤ q then q.floor else q.ceil

/-- The case-insensitive exact-match test of `find_client`: the stored
`Client-Name` is stripped when compared (`client.get('Client-Name','').strip()`),
the candidate has already been stripped. -/
def exactPred (b : Str) (c : Client) : Bool :=
  toLowerStr (strip c.clientName) = toLowerStr b

/-- `rapidfuzz.process.extractOne(query, choices, scorer, score_cutoff)`:
the first choice attaining the maximal score, provided it is ≥ the cutoff. -/
def extractOne (scorer : Str → Str → ℚ) (cutoff : ℚ) (query : Str)
    (choices : List Str) : Option (Str × ℚ) :=
  choices.foldl (fun acc ch =>
    let s := scorer query ch
    match acc with
    | none => if cutoff ≤ s then some (ch, s) else none
    | some (bc, bs) => if bs < s then some (ch, s) else some (bc, bs)) none

/-- `ClientDatabase.find_client`: empty-name guard, strip, exact pass
(case-insensitive, first hit wins), then fuzzy pass via `extractOne` against
the stripped roster names, resolving the winning name back to the first
roster entry carrying it. -/
def find_client (scorer : Str → Str → ℚ) (fuzzyThreshold : ℚ)
    (roster : List Client) (name : Str) : Option Client :=
  if name = [] then none
  else
    let b := strip name
    match roster.find? (fun c => exactPred b c) with
    | some c => some c
    | none =>
      match extractOne scorer fuzzyThreshold b (roster.map (fun c => strip c.clientName)) with
      | some (mn, _) => roster.find? (fun c => strip c.clientName = mn)
      | none => none

/-- `rapidfuzz.process.extract(query, choices, scorer, score_cutoff, limit=None)`:
score every choice, keep those with score ≥ cutoff, sorted by score
descending (stable). -/
def extractAll (scorer : Str → Str → ℚ) (cutoff : ℚ) (query : Str)
    (choices : List Str) : List (Str × ℚ) :=
  List.insertionSort (fun p q : Str × ℚ => q.2 ≤ p.2)
    ((choices.map (fun n => (n, scorer query n))).filter (fun p => cutoff ≤ p.2))

/-- `ClientDatabase.find_all_matches`. Note `min_score or self.fuzzy_threshold`:
an explicit `min_score` of `0` is falsy in Python and silently replaced by
the configured default threshold. -/
def find_all_matches (scorer : Str → Str → ℚ) (fuzzyThreshold : Int)
    (roster : List Client) (name : Str) (minScore : Option Int) :
    List (Client × Int) :=
  if name = [] || strip name = [] then []
  else
    let b := strip name
    let cutoff : Int :=
      match minScore with
      | none => fuzzyThreshold
      | some m => if m = 0 then fuzzyThreshold else m
    if roster = [] then []
    else
      let results := extractAll scorer (cutoff : ℚ) b (roster.map (fun c => strip c.clientName))
      let resolved := results.filterMap (fun p =>
        (roster.find? (fun c => strip c.clientName = p.1)).map (fun c => (c, pyInt p.2)))
      List.insertionSort (fun x y : Client × Int => y.2 ≤ x.2) resolved

/- ## Report-type classifier (`PDFExtractor._detect_report_type`) -/

/-- The Google-Ads-indicative keyword set of `_detect_report_type`. -/
def gaKeywords : List Str :=
  [ ("google ads").data, ("cpc").data, ("clicks").data, ("impressions").data,
    ("ctr").data, ("cost per click").data]

/-- The SEO-indicative keyword set of `_detect_report_type`. -/
def seoKeywords : List Str :=
  [ ("organic search").data, ("bounce rate").data, ("engagement rate").data,
    ("active users").data, ("keyword rankings").data]

/-- `sum(1 for keyword in keywords if keyword in text_lower)`. -/
def keywordScore (textLower : Str) (kws : List Str) : Nat :=
  (kws.filter (fun k => containsSub textLower k)).length

/-- `PDFExtractor._detect_report_type`: compare the two keyword scores;
strictly higher wins, the fallthrough (ties included) returns `'SEO'`. -/
def detectReportType (text : Str) : Str :=
  let tl := toLowerStr text
  let ga := keywordScore tl gaKeywords
  let seo := keywordScore tl seoKeywords
  if seo < ga then ("Google Ads").data
  else if ga < seo then ("SEO").data
  else ("SEO").data

/- ## KPI schemas and the KPI mapping -/

/-- `PDFExtractor.SEO_KPI_FIELDS`. -/
def seoKpiFields : List Str :=
  [ ("Sessions").data, ("Active users").data, ("New users").data,
    ("Key events").data, ("Engagement rate").data, ("Bounce rate").data,
    ("Average session duration").data]

/-- `PDFExtractor.GOOGLE_ADS_KPI_FIELDS`. -/
def googleAdsKpiFields : List Str :=
  [ ("Clicks").data, ("Impressions").data, ("CTR").data, ("Conversions").data,
    ("Conv. rate").data, ("Avg. CPC").data, ("Cost").data]

/-- A value stored in the `kpis` dict. The table path stores the plain value
string; the text path stores a `{'value': ..., 'change': ...}` dict. -/
inductive KpiVal where
  | plain (s : Str)
  | entry (value : Str) (change : Option Str)
deriving DecidableEq

/-- The `kpis` Python dict: an insertion-ordered association list. -/
abbrev KpiMap := List (Str × KpiVal)

/-- Python dict assignment `m[k] = v`: replace in place if the key exists,
else append. -/
def dictInsert (k : Str) (v : KpiVal) : KpiMap → KpiMap
  | [] => [(k, v)]
  | p :: rest => if p.1 = k then (k, v) :: rest else p :: dictInsert k v rest

/-- Python dict lookup `m[k]` as an option. -/
def dictGet (k : Str) : KpiMap → Option KpiVal
  | [] => none
  | p :: rest => if p.1 = k then some p.2 else dictGet k rest

/-- Python `k in m` for the kpis dict. -/
def dictHasKey (k : Str) (m : KpiMap) : Bool := (dictGet k m).isSome

/- ## Table extraction (`PDFExtractor._extract_kpis_from_tables`)

pdfplumber cells are `Optional[str]`. -/

abbrev Cell := Option Str
abbrev Row := List Cell
abbrev Table := List Row

/-- `str(cell).strip() if cell else ""`: `None` and `""` are falsy. -/
def cellStr (c : Cell) : Str :=
  match c with
  | none => []
  | some s => if s = [] then [] else strip s

/-- One iteration of the row loop of `_extract_kpis_from_tables`: rows
shorter than two cells are skipped; the first expected field whose name is a
case-insensitive substring of the first cell receives the second cell as its
(plain string) value, provided that value is non-empty and not `'None'`. -/
def rowUpdate (expected : List Str) (kpis : KpiMap) (row : Row) : KpiMap :=
  match row with
  | c0 :: c1 :: _ =>
    let metricName := cellStr c0
    let metricValue := cellStr c1
    match expected.find? (fun f => containsSub (toLowerStr metricName) (toLowerStr f)) with
    | some f =>
      if metricValue ≠ [] ∧ metricValue ≠ ("None").data then
        dictInsert f (KpiVal.plain metricValue) kpis
      else kpis
    | none => kpis
  | _ => kpis

/-- `PDFExtractor._extract_kpis_from_tables`. -/
def extractKpisFromTables (tables : List Table) (expected : List Str) : KpiMap :=
  tables.foldl (fun kpis table => table.foldl (rowUpdate expected) kpis) []

/- ## Value / change token scanners (`re.findall` in `_parse_looker_studio_kpis`)

The values regex is
`[0-9]{2}:[0-9]{2}:[0-9]{2}|[$][0-9,]+\.?[0-9]*|[0-9,]+\.?[0-9]*%?`
and the changes regex is `-?[0-9]+\.?[0-9]*%|N/A`. `re.findall` scans left to
right, trying the alternatives in order at each position, consuming each
non-overlapping match; these particular patterns are deterministic under
greedy matching (each optional piece is followed only by constraints its
shrinking cannot repair), so the scanners below munch greedily. -/

/-- First alternative `[0-9]{2}:[0-9]{2}:[0-9]{2}` at the current position. -/
def matchTime : Str → Option (Str × Str)
  | d1 :: d2 :: c1 :: d3 :: d4 :: c2 :: d5 :: d6 :: rest =>
    if isDigitCh d1 && isDigitCh d2 && c1 = ':' && isDigitCh d3 && isDigitCh d4 &&
       c2 = ':' && isDigitCh d5 && isDigitCh d6 then
      some ([d1, d2, c1, d3, d4, c2, d5, d6], rest)
    else none
  | _ => none

/-- Second alternative `[$][0-9,]+\.?[0-9]*` at the current position. -/
def matchCurrency : Str → Option (Str × Str)
  | '$' :: rest =>
    let digs := rest.takeWhile (fun c => isDigitCh c || c = ',')
    if digs = [] then none
    else
      let r1 := rest.dropWhile (fun c => isDigitCh c || c = ',')
      match r1 with
      | '.' :: r2 =>
        some ('$' :: digs ++ '.' :: r2.takeWhile isDigitCh, r2.dropWhile isDigitCh)
      | _ => some ('$' :: digs, r1)
  | _ => none

/-- Third alternative `[0-9,]+\.?[0-9]*%?` at the current position. -/
def matchNumber (s : Str) : Option (Str × Str) :=
  let digs := s.takeWhile (fun c => isDigitCh c || c = ',')
  if digs = [] then none
  else
    let r1 := s.dropWhile (fun c => isDigitCh c || c = ',')
    let dp : Str × Str :=
      match r1 with
      | '.' :: r2 => ('.' :: r2.takeWhile isDigitCh, r2.dropWhile isDigitCh)
      | _ => ([], r1)
    match dp.2 with
    | '%' :: r3 => some (digs ++ dp.1 ++ ['%'], r3)
    | _ => some (digs ++ dp.1, dp.2)

/-- `re.findall` driver for the values regex (fuel = string length; every
match and every skipped character consumes at least one character). -/
def scanValues : Nat → Str → List Str
  | 0, _ => []
  | _, [] => []
  | fuel + 1, c :: t =>
    match matchTime (c :: t) with
    | some (tok, rest) => tok :: scanValues fuel rest
    | none =>
      match matchCurrency (c :: t) with
      | some (tok, rest) => tok :: scanValues fuel rest
      | none =>
        match matchNumber (c :: t) with
        | some (tok, rest) => tok :: scanValues fuel rest
        | none => scanValues fuel t

/-- `re.findall(values_regex, line)`. -/
def findValues (s : Str) : List Str := scanValues s.length s

/-- First alternative `-?[0-9]+\.?[0-9]*%` of the changes regex. -/
def matchChange (s : Str) : Option (Str × Str) :=
  let sg : Str × Str :=
    match s with
    | '-' :: r => (['-'], r)
    | _ => ([], s)
  let digs := sg.2.takeWhile isDigitCh
  if digs = [] then none
  else
    let r1 := sg.2.dropWhile isDigitCh
    let dp : Str × Str :=
      match r1 with
      | '.' :: r2 => ('.' :: r2.takeWhile isDigitCh, r2.dropWhile isDigitCh)
      | _ => ([], r1)
    match dp.2 with
    | '%' :: r3 => some (sg.1 ++ digs ++ dp.1 ++ ['%'], r3)
    | _ => none

/-- Full changes pattern `-?[0-9]+\.?[0-9]*%|N/A` at the current position. -/
def matchChangeTok (s : Str) : Option (Str × Str) :=
  match matchChange s with
  | some r => some r
  | none =>
    if ("N/A").data.isPrefixOf s then some (("N/A").data, s.drop 3) else none

/-- `re.findall` driver for the changes regex. -/
def scanChanges : Nat → Str → List Str
  | 0, _ => []
  | _, [] => []
  | fuel + 1, c :: t =>
    match matchChangeTok (c :: t) with
    | some (tok, rest) => tok :: scanChanges fuel rest
    | none => scanChanges fuel t

/-- `re.findall(changes_regex, line)`. -/
def findChanges (s : Str) : List Str := scanChanges s.length s

/- ## Positional KPI parser (`PDFExtractor._parse_looker_studio_kpis`) -/

/-- The `(position, field)` pairs: each expected field found (case
insensitively) in the header, tagged with its first occurrence index. -/
def fieldPositions (headerLine : Str) (expected : List Str) : List (Nat × Str) :=
  expected.filterMap (fun f =>
    (findSub (toLowerStr headerLine) (toLowerStr f)).map (fun p => (p, f)))

/-- Python tuple `≤` on `(int, str)` pairs, as used by `list.sort()`. -/
def pairLe (p q : Nat × Str) : Bool :=
  if p.1 < q.1 then true
  else if q.1 < p.1 then false
  else lexLeCh p.2 q.2

/-- `field_positions.sort()` (ascending tuple order, stable). -/
def sortPairs (l : List (Nat × Str)) : List (Nat × Str) :=
  List.insertionSort (fun p q => pairLe p q = true) l

/-- The `enumerate(field_positions)` assignment loop: the field at sorted
index `idx` receives value token `idx` and change token `idx` (the change is
`None` past the end of the change list; a field past the end of the value
list receives no entry). -/
def assignLoop (values changes : List Str) : Nat → List (Nat × Str) → KpiMap → KpiMap
  | _, [], m => m
  | idx, pf :: rest, m =>
    assignLoop values changes (idx + 1) rest
      (if idx < values.length then
        dictInsert pf.2 (KpiVal.entry (values.getD idx []) (changes.get? idx)) m
      else m)

/-- `PDFExtractor._parse_looker_studio_kpis`. -/
def parseLookerStudioKpis (headerLine valuesLine changesLine : Str)
    (expected : List Str) : KpiMap :=
  assignLoop (findValues valuesLine) (findChanges changesLine) 0
    (sortPairs (fieldPositions headerLine expected)) []

/- ## Text KPI scanner (`PDFExtractor._extract_kpis_from_text`) -/

/-- `len([field for field in expected_fields if field.lower() in line.lower()])`. -/
def countFieldsLine (expected : List Str) (line : Str) : Nat :=
  (expected.filter (fun f => containsSub (toLowerStr line) (toLowerStr f))).length

/-- The best-header scan: update `(best, best_count)` only when the current
line matches strictly more fields than the best so far AND at least two
lines follow it in the whole line list (`i + 2 < len(lines)`). -/
def scanBestAux (expected : List Str) (total : Nat) :
    List Str → Nat → Option Nat → Nat → Option Nat × Nat
  | [], _, best, bc => (best, bc)
  | l :: rest, i, best, bc =>
    let c := countFieldsLine expected l
    if bc < c ∧ i + 2 < total then scanBestAux expected total rest (i + 1) (some i) c
    else scanBestAux expected total rest (i + 1) best bc

/-- The `(best_match, best_match_count)` pair after the scan loop. -/
def scanBest (expected : List Str) (lines : List Str) : Option Nat × Nat :=
  scanBestAux expected lines.length lines 0 none 0

/-- `_extract_kpis_from_text` after splitting the text into lines: parse the
selected line and the two lines after it (stripped) when the best count
reaches 3, otherwise return the empty mapping. -/
def extractKpisFromLines (expected : List Str) (lines : List Str) : KpiMap :=
  match scanBest expected lines with
  | (some i, bc) =>
    if 3 ≤ bc then
      parseLookerStudioKpis (lines.getD i []) (strip (lines.getD (i + 1) []))
        (strip (lines.getD (i + 2) [])) expected
    else []
  | (none, _) => []

/-- `PDFExtractor._extract_kpis_from_text`. -/
def extractKpisFromText (text : Str) (expected : List Str) : KpiMap :=
  extractKpisFromLines expected (splitNl text)

/- ## KPI merge (`PDFExtractor._extract_kpis`) -/

/-- `PDFExtractor._extract_kpis`: table extraction first (when any tables
exist), then the text fallback fills only the missing fields. -/
def extractKpis (text : Str) (tables : List Table) (reportType : Str) : KpiMap :=
  let expected := if reportType = ("SEO").data then seoKpiFields else googleAdsKpiFields
  let kpis := if tables = [] then [] else extractKpisFromTables tables expected
  if kpis.length < expected.length then
    (extractKpisFromText text expected).foldl
      (fun m p => if dictHasKey p.1 m then m else m ++ [p]) kpis
  else kpis

/- ## Date extraction (`PDFExtractor._extract_date`)

The four patterns are searched in order with `re.IGNORECASE`; the first
structural match has its captured group stripped and run through the
`strptime` format list `['%B %Y', '%B %d, %Y', '%m/%d/%Y', '%Y-%m-%d']`; if
every format fails the NEXT pattern is tried. In each pattern, `\w+` and
`\s+`/`\s*` runs are deterministic (shrinking a `\w+` run leaves a word
character where whitespace is required, and conversely), and a `\d{1,2}`
followed by a non-digit requirement matches exactly a digit run of length
one or two. -/

/-- Generic `re.search`: try the position matcher at every index, left to
right, returning the first captured group. -/
def reSearch (tryAt : Str → Option Str) : Str → Option Str
  | [] => tryAt []
  | c :: t =>
    match tryAt (c :: t) with
    | some cap => some cap
    | none => reSearch tryAt t

/-- Case-insensitive literal prefix test (the literal is lowercase). -/
def ciPrefix (lit : Str) (s : Str) : Bool := toLowerStr (s.take lit.length) = lit

/-- Pattern `(?:Date|Period|Month):\s*(\w+\s+\d{4})` at one position. -/
def dateTry1At (s : Str) : Option Str :=
  match [("date:").data, ("period:").data, ("month:").data].findSome?
      (fun lab => if ciPrefix lab s then some (s.drop lab.length) else none) with
  | none => none
  | some r1 =>
    let r2 := r1.dropWhile isPySpace
    let w := r2.takeWhile isWordCh
    if w = [] then none
    else
      let r3 := r2.dropWhile isWordCh
      let sp := r3.takeWhile isPySpace
      if sp = [] then none
      else
        match r3.dropWhile isPySpace with
        | a :: b :: c :: d :: _ =>
          if isDigitCh a && isDigitCh b && isDigitCh c && isDigitCh d then
            some (w ++ sp ++ [a, b, c, d])
          else none
        | _ => none

/-- Pattern `(\w+\s+\d{1,2},?\s+\d{4})` at one position. -/
def dateTry2At (s : Str) : Option Str :=
  let w := s.takeWhile isWordCh
  if w = [] then none
  else
    let r1 := s.dropWhile isWordCh
    let sp1 := r1.takeWhile isPySpace
    if sp1 = [] then none
    else
      let r2 := r1.dropWhile isPySpace
      let dr := r2.takeWhile isDigitCh
      if dr.length = 0 ∨ 2 < dr.length then none
      else
        let r3 := r2.dropWhile isDigitCh
        let cm : Str × Str :=
          match r3 with
          | ',' :: r4 => ([','], r4)
          | _ => ([], r3)
        let sp2 := cm.2.takeWhile isPySpace
        if sp2 = [] then none
        else
          match cm.2.dropWhile isPySpace with
          | a :: b :: c :: d :: _ =>
            if isDigitCh a && isDigitCh b && isDigitCh c && isDigitCh d then
              some (w ++ sp1 ++ dr ++ cm.1 ++ sp2 ++ [a, b, c, d])
            else none
          | _ => none

/-- Pattern `(\d{1,2}/\d{1,2}/\d{4})` at one position. -/
def dateTry3At (s : Str) : Option Str :=
  let d1 := s.takeWhile isDigitCh
  if d1.length = 0 ∨ 2 < d1.length then none
  else
    match s.dropWhile isDigitCh with
    | '/' :: r1 =>
      let d2 := r1.takeWhile isDigitCh
      if d2.length = 0 ∨ 2 < d2.length then none
      else
        match r1.dropWhile isDigitCh with
        | '/' :: r2 =>
          match r2 with
          | a :: b :: c :: d :: _ =>
            if isDigitCh a && isDigitCh b && isDigitCh c && isDigitCh d then
              some (d1 ++ '/' :: d2 ++ '/' :: [a, b, c, d])
            else none
          | _ => none
        | _ => none
    | _ => none

/-- Pattern `(\d{4}-\d{2}-\d{2})` at one position. -/
def dateTry4At (s : Str) : Option Str :=
  match s with
  | a :: b :: c :: d :: h1 :: e :: f :: h2 :: g :: h :: _ =>
    if isDigitCh a && isDigitCh b && isDigitCh c && isDigitCh d && h1 = '-' &&
       isDigitCh e && isDigitCh f && h2 = '-' && isDigitCh g && isDigitCh h then
      some [a, b, c, d, '-', e, f, '-', g, h]
    else none
  | _ => none

/- ### `datetime.strptime` for the four formats used -/

/-- The full month names recognised by `%B` (case-insensitive; no name is a
prefix of another, so first-prefix-match is exact). -/
def monthNames : List Str :=
  [ ("January").data, ("February").data, ("March").data, ("April").data,
    ("May").data, ("June").data, ("July").data, ("August").data,
    ("September").data, ("October").data, ("November").data, ("December").data]

/-- `%B`: parse a month name, returning its 1-based number and the rest. -/
def parseMonthName (s : Str) : Option (Nat × Str) :=
  (List.range 12).findSome? (fun i =>
    match monthNames.get? i with
    | some nm => if ciPrefix (toLowerStr nm) s then some (i + 1, s.drop nm.length) else none
    | none => none)

/-- A whitespace character in a `strptime` format matches `\s+`. -/
def wsPlus (s : Str) : Option Str :=
  match s with
  | c :: _ => if isPySpace c then some (s.dropWhile isPySpace) else none
  | [] => none

/-- Digit value of an ASCII digit character. -/
def digitVal (c : Char) : Nat := c.toNat - 48

/-- `%d` candidates in CPython's alternation order
`3[01]|[12]\d|0[1-9]|[1-9]| [1-9]` (two-character alternatives are mutually
exclusive on the first character; the lone `[1-9]` is the only backtracking
fallback). -/
def dayCandidates (s : Str) : List (Nat × Str) :=
  (match s with
   | c1 :: c2 :: rest =>
     if c1 = '3' && (c2 = '0' || c2 = '1') then [(30 + digitVal c2, rest)]
     else if (c1 = '1' || c1 = '2') && isDigitCh c2 then
       [(digitVal c1 * 10 + digitVal c2, rest)]
     else if c1 = '0' && ('1' ≤ c2 && c2 ≤ '9') then [(digitVal c2, rest)]
     else if c1 = ' ' && ('1' ≤ c2 && c2 ≤ '9') then [(digitVal c2, rest)]
     else []
   | _ => []) ++
  (match s with
   | c :: rest => if '1' ≤ c && c ≤ '9' then [(digitVal c, rest)] else []
   | [] => [])

/-- `%m` candidates in CPython's alternation order `1[0-2]|0[1-9]|[1-9]`. -/
def monthCandidates (s : Str) : List (Nat × Str) :=
  (match s with
   | c1 :: c2 :: rest =>
     if c1 = '1' && (c2 = '0' || c2 = '1' || c2 = '2') then [(10 + digitVal c2, rest)]
     else if c1 = '0' && ('1' ≤ c2 && c2 ≤ '9') then [(digitVal c2, rest)]
     else []
   | _ => []) ++
  (match s with
   | c :: rest => if '1' ≤ c && c ≤ '9' then [(digitVal c, rest)] else []
   | [] => [])

/-- `%Y`: exactly four digits. -/
def parseYear4 (s : Str) : Option (Nat × Str) :=
  match s with
  | a :: b :: c :: d :: rest =>
    if isDigitCh a && isDigitCh b && isDigitCh c && isDigitCh d then
      some (digitVal a * 1000 + digitVal b * 100 + digitVal c * 10 + digitVal d, rest)
    else none
  | _ => none

/-- `strptime(ds, '%B %Y')` (full match; day defaults to 1). -/
def fmtBY (ds : Str) : Option (Nat × Nat × Nat) :=
  match parseMonthName ds with
  | none => none
  | some (m, r1) =>
    match wsPlus r1 with
    | none => none
    | some r2 =>
      match parseYear4 r2 with
      | some (y, []) => some (y, m, 1)
      | _ => none

/-- `strptime(ds, '%B %d, %Y')` (full match). -/
def fmtBdY (ds : Str) : Option (Nat × Nat × Nat) :=
  match parseMonthName ds with
  | none => none
  | some (m, r1) =>
    match wsPlus r1 with
    | none => none
    | some r2 =>
      (dayCandidates r2).findSome? (fun dc =>
        match dc.2 with
        | ',' :: r3 =>
          match wsPlus r3 with
          | none => none
          | some r4 =>
            match parseYear4 r4 with
            | some (y, []) => some (y, m, dc.1)
            | _ => none
        | _ => none)

/-- `strptime(ds, '%m/%d/%Y')` (full match). -/
def fmtMdY (ds : Str) : Option (Nat × Nat × Nat) :=
  (monthCandidates ds).findSome? (fun mc =>
    match mc.2 with
    | '/' :: r1 =>
      (dayCandidates r1).findSome? (fun dc =>
        match dc.2 with
        | '/' :: r2 =>
          match parseYear4 r2 with
          | some (y, []) => some (y, mc.1, dc.1)
          | _ => none
        | _ => none)
    | _ => none)

/-- `strptime(ds, '%Y-%m-%d')` (full match). -/
def fmtYmd (ds : Str) : Option (Nat × Nat × Nat) :=
  match parseYear4 ds with
  | some (y, '-' :: r1) =>
    (monthCandidates r1).findSome? (fun mc =>
      match mc.2 with
      | '-' :: r2 =>
        (dayCandidates r2).findSome? (fun dc =>
          match dc.2 with
          | [] => some (y, mc.1, dc.1)
          | _ => none)
      | _ => none)
  | _ => none

/-- Gregorian leap year (as validated by `datetime`). -/
def isLeap (y : Nat) : Bool := y % 4 = 0 && (y % 100 ≠ 0 || y % 400 = 0)

/-- Length of a month, for `datetime`'s day-of-month validation. -/
def daysInMonth (y m : Nat) : Nat :=
  if m = 2 then (if isLeap y then 29 else 28)
  else if m = 4 ∨ m = 6 ∨ m = 9 ∨ m = 11 then 30
  else 31

/-- `datetime(year, month, day)` constructor validation. -/
def validDate (y m d : Nat) : Bool :=
  1 ≤ y && y ≤ 9999 && 1 ≤ m && m ≤ 12 && 1 ≤ d && d ≤ daysInMonth y m

/-- The `for fmt in [...]` loop: the first format whose regex matches the
whole string; its `(y, m, d)` are then validated by the `datetime`
constructor, a failure falling through to the next format via `ValueError`. -/
def tryDateFormats (ds : Str) : Option (Nat × Nat × Nat) :=
  [fmtBY, fmtBdY, fmtMdY, fmtYmd].findSome? (fun f =>
    match f ds with
    | some (y, m, d) => if validDate y m d then some (y, m, d) else none
    | none => none)

/-- `dt.strftime('%Y-%m-%d')`. -/
def fmtFullDate (y m d : Nat) : Str := natToStr y ++ '-' :: pad2 m ++ '-' :: pad2 d

/-- `dt.strftime('%B %Y')`. -/
def fmtMonthYear (y m : Nat) : Str := monthNames.getD (m - 1) [] ++ ' ' :: natToStr y

/-- `PDFExtractor._extract_date`: the four patterns in order; a matched but
unparseable capture falls through to the next pattern; no pattern handles a
date range, so on range text the first single date (the range's start) is
what gets captured. -/
def extractDate (text : Str) : Option Str × Option Str :=
  match [reSearch dateTry1At, reSearch dateTry2At, reSearch dateTry3At,
         reSearch dateTry4At].findSome? (fun srch =>
          (srch text).bind (fun cap => tryDateFormats (strip cap))) with
  | some (y, m, d) => (some (fmtFullDate y m d), some (fmtMonthYear y m))
  | none => (none, none)

/- ## Business-name extraction (`PDFExtractor._extract_business_name`)

Pattern 1 is `(?:Report for|Client:|Business:)\s*([A-Z][A-Za-z0-9\s&,.\'-]+?)(?:\n|$)`
and pattern 2 is `^([A-Z][A-Za-z0-9\s&,.\'-]{3,}?)(?:\s*-\s*(?:SEO|SEM|Google Ads)|\n)`,
both with IGNORECASE and MULTILINE. The character class contains `\s`, so a
lazy capture extends until the next character closes the group (a newline or
the end for pattern 1; the suffix alternation for pattern 2) or a character
outside the class kills the match at this position. -/

/-- The name character class `[A-Za-z0-9\s&,.\'-]`. -/
def bnClassCh (c : Char) : Bool :=
  c.isAlpha || isDigitCh c || isPySpace c || c = '&' || c = ',' || c = '.' ||
  c = Char.ofNat 39 || c = '-'

/-- Lazy `[A-Za-z0-9\s&,.\'-]+?(?:\n|$)`: the shortest non-empty class-char
run after which the string ends or a newline follows. -/
def lazyToNl : Str → Option Str
  | [] => none
  | c :: t =>
    if bnClassCh c then
      if t = [] ∨ t.head? = some '\n' then some [c]
      else
        match lazyToNl t with
        | some cap => some (c :: cap)
        | none => none
    else none

/-- Pattern 1 at one position: one of the labels (case-insensitively), then
`\s*` (deterministic: the class requires a letter first), then the lazy
capture. Returns group 1. -/
def bnTry1At (s : Str) : Option Str :=
  match [("report for").data, ("client:").data, ("business:").data].findSome?
      (fun lab => if ciPrefix lab s then some (s.drop lab.length) else none) with
  | none => none
  | some r1 =>
    match r1.dropWhile isPySpace with
    | c :: t => if c.isAlpha then (lazyToNl t).map (fun cap => c :: cap) else none
    | [] => none

/-- The pattern-2 closing alternation `(?:\s*-\s*(?:SEO|SEM|Google Ads)|\n)`
tested at a position. -/
def bnSuffixOk (s : Str) : Bool :=
  (match s.dropWhile isPySpace with
   | '-' :: r2 =>
     let r3 := r2.dropWhile isPySpace
     ciPrefix (("seo").data) r3 || ciPrefix (("sem").data) r3 ||
     ciPrefix (("google ads").data) r3
   | _ => false) ||
  s.head? = some '\n'

/-- Lazy `{3,}?` scan of pattern 2: after at least three class characters,
stop at the first position where the closing alternation matches. -/
def bnP2Scan (taken : Nat) (acc : Str) (s : Str) : Option Str :=
  if 3 ≤ taken ∧ bnSuffixOk s then some acc.reverse
  else
    match s with
    | [] => none
    | c :: t => if bnClassCh c then bnP2Scan (taken + 1) (c :: acc) t else none

/-- Pattern 2 at a line start (the `^` anchor). Returns group 1. -/
def bnTry2At (s : Str) : Option Str :=
  match s with
  | c :: t => if c.isAlpha then (bnP2Scan 0 [] t).map (fun cap => c :: cap) else none
  | [] => none

/-- MULTILINE `re.search` for pattern 2: position 0, then after each newline. -/
def bnSearch2Aux : Str → Option Str
  | [] => none
  | c :: t =>
    if c = '\n' then
      match bnTry2At t with
      | some cap => some cap
      | none => bnSearch2Aux t
    else bnSearch2Aux t

/-- MULTILINE `re.search` for pattern 2. -/
def bnSearch2 (s : Str) : Option Str :=
  match bnTry2At s with
  | some cap => some cap
  | none => bnSearch2Aux s

/-- `re.sub(r'\s+', ' ', s)`: collapse every whitespace run to one space. -/
def collapseWsAux (prevSpace : Bool) : Str → Str
  | [] => []
  | c :: t =>
    if isPySpace c then
      (if prevSpace then collapseWsAux true t else ' ' :: collapseWsAux true t)
    else c :: collapseWsAux false t

/-- `re.sub(r'\s+', ' ', s)`. -/
def collapseWs (s : Str) : Str := collapseWsAux false s

/-- Group post-processing common to both patterns: strip, collapse
whitespace, require length > 3 (otherwise the next strategy is tried). -/
def bnClean (cap : Str) : Option Str :=
  let bn := collapseWs (strip cap)
  if 3 < bn.length then some bn else none

/-- The fallback exclusion regex `^\d|^Page\s+\d|^Report|^Date:`
(case-sensitive `re.match`). -/
def fallbackExcluded (l : Str) : Bool :=
  (match l with
   | c :: _ => isDigitCh c
   | [] => false) ||
  (("Page").data.isPrefixOf l &&
    (let r := l.drop 4
     let sp := r.takeWhile isPySpace
     sp ≠ [] &&
       (match r.dropWhile isPySpace with
        | d :: _ => isDigitCh d
        | [] => false))) ||
  ("Report").data.isPrefixOf l ||
  ("Date:").data.isPrefixOf l

/-- `PDFExtractor._extract_business_name`. -/
def extractBusinessName (text : Str) : Option Str :=
  match (reSearch bnTry1At text).bind bnClean with
  | some bn => some bn
  | none =>
    match (bnSearch2 text).bind bnClean with
    | some bn => some bn
    | none =>
      match ((splitNl text).map strip).filter (fun l => l ≠ []) with
      | [] => none
      | first :: _ =>
        if fallbackExcluded first then none else some (first.take 100)

/- ## Top-level extraction (`PDFExtractor.extract_report_data`)

Opening the PDF and reading the first page's text and tables is the external
`pdfplumber` boundary; it is modelled as an `Except`: either an exception
with its message, or the page's `(extract_text(), extract_tables())` result
(`extract_text` may return `None`, in which case `_detect_report_type`
raises `AttributeError`, caught by the same handler). -/

abbrev PdfSource := Except Str (Option Str × List Table)

/-- The result dictionary of `extract_report_data`. -/
structure ExtractionResult where
  businessName : Option Str
  reportDate : Option Str
  reportMonth : Option Str
  reportType : Option Str
  kpis : KpiMap
  extractionErrors : List Str
  pdfFilename : Str
deriving DecidableEq

/-- `f"Failed to extract data from {pdf_path.name}: {str(e)}"`. -/
def failMsg (fname e : Str) : Str :=
  ("Failed to extract data from ").data ++ fname ++ (": ").data ++ e

/-- The `AttributeError` message raised by `None.lower()` when
`extract_text()` returns `None` (Python quotes the two names). -/
def attrErrMsg : Str := ("NoneType object has no attribute lower").data

/-- Python falsiness of an optional-string result field. -/
def isFalsyOptStr (o : Option Str) : Bool :=
  match o with
  | none => true
  | some s => s = []

/-- The expected-KPI list chosen by `result['report_type'] == 'SEO'`. -/
def expectedFieldsFor (rt : Option Str) : List Str :=
  if rt = some (("SEO").data) then seoKpiFields else googleAdsKpiFields

/-- `PDFExtractor.extract_report_data`: the initial result dictionary is
filled field by field inside a `try`; any exception is caught and appended
as the last extraction error; missing name / month / type / KPIs each append
their own error string. -/
def extract_report_data (src : PdfSource) (fname : Str) : ExtractionResult :=
  match src with
  | .error e =>
    { businessName := none, reportDate := none, reportMonth := none,
      reportType := none, kpis := [],
      extractionErrors := [failMsg fname e], pdfFilename := fname }
  | .ok (none, _) =>
    { businessName := none, reportDate := none, reportMonth := none,
      reportType := none, kpis := [],
      extractionErrors := [failMsg fname attrErrMsg], pdfFilename := fname }
  | .ok (some text, tables) =>
    let rt := detectReportType text
    let bn := extractBusinessName text
    let rdm := extractDate text
    let kpis := extractKpis text tables rt
    let missing := (expectedFieldsFor (some rt)).filter (fun k => !dictHasKey k kpis)
    let errs :=
      (if isFalsyOptStr bn then [("Could not extract business name").data] else []) ++
      (if isFalsyOptStr rdm.2 then [("Could not extract report date/month").data] else []) ++
      (if isFalsyOptStr (some rt) then
        [("Could not detect report type (SEO or Google Ads)").data] else []) ++
      (if missing ≠ [] then [("Missing KPIs: ").data ++ joinCommaSpace missing] else [])
    { businessName := bn, reportDate := rdm.1, reportMonth := rdm.2,
      reportType := some rt, kpis := kpis, extractionErrors := errs,
      pdfFilename := fname }

/- ## Proof-support predicates -/

/-- Loop invariant of the best-header scan: after processing all line
indices below `i`, a recorded best `(some k, bc)` means `k` is a valid index
(two lines follow it within `total`), its line's field count is `bc`, no
valid index below `i` beats `bc`, and every valid index before `k` counts
strictly fewer fields (so `k` is the first maximum); `(none, bc)` means no
valid index below `i` matched any field at all. -/
def scanInv (expected : List Str) (total : Nat) (lines : List Str) (i : Nat) :
    Option Nat × Nat → Prop
  | (some k, bc) =>
    k < i ∧ k + 2 < total ∧
    (∃ l, lines.get? k = some l ∧ countFieldsLine expected l = bc) ∧
    (∀ j l, j < i → j + 2 < total → lines.get? j = some l →
      countFieldsLine expected l ≤ bc) ∧
    (∀ j l, j < k → j + 2 < total → lines.get? j = some l →
      countFieldsLine expected l < bc)
  | (none, bc) =>
    bc = 0 ∧
    (∀ j l, j < i → j + 2 < total → lines.get? j = some l →
      countFieldsLine expected l = 0)

/-! # Theorems -/

/- ## General helper lemmas -/

theorem toLowerStr_eq_nil {s : Str} : toLowerStr s = [] ↔ s = [] := by
  simp [toLowerStr]

theorem strip_nil : strip ([] : Str) = [] := rfl

theorem detectReportType_cases (text : Str) :
    detectReportType text = ("Google Ads").data ∨ detectReportType text = ("SEO").data := by
  simp only [detectReportType]
  split_ifs <;> simp

theorem detectReportType_ne_nil (text : Str) : detectReportType text ≠ [] := by
  rcases detectReportType_cases text with h | h <;> rw [h] <;> decide

theorem mem_ite_singleton {c : Prop} [Decidable c] {a m : Str}
    (h : a ∈ (if c then [m] else ([] : List Str))) : a = m := by
  split at h
  · simpa using h
  · simp at h

/- ## C5: report-type classifier -/

/-- C5: the classifier lower-cases the text and scores the two fixed keyword
sets; it returns `'Google Ads'` exactly when the Google-Ads score is
strictly higher, returns `'SEO'` otherwise (so every tie, including 0–0,
yields `'SEO'`), and no input other than the text is consulted. -/
theorem detectReportType_keyword_rule (text : Str) :
    (detectReportType text = ("Google Ads").data ∨ detectReportType text = ("SEO").data) ∧
    (detectReportType text = ("Google Ads").data ↔
      keywordScore (toLowerStr text) seoKeywords < keywordScore (toLowerStr text) gaKeywords) ∧
    (keywordScore (toLowerStr text) gaKeywords = keywordScore (toLowerStr text) seoKeywords →
      detectReportType text = ("SEO").data) := by
  have hne : ("Google Ads").data ≠ ("SEO").data := by decide
  simp only [detectReportType]
  split_ifs with h1 h2
  · exact ⟨Or.inl rfl, ⟨fun _ => h1, fun _ => rfl⟩, fun he => absurd h1 (by omega)⟩
  · exact ⟨Or.inr rfl, ⟨fun hg => absurd hg (Ne.symm hne), fun hlt => absurd hlt h1⟩,
      fun _ => rfl⟩
  · exact ⟨Or.inr rfl, ⟨fun hg => absurd hg (Ne.symm hne), fun hlt => absurd hlt h1⟩,
      fun _ => rfl⟩

/-- C5 witness: a text containing no keyword of either set ties 0–0 and is
classified `'SEO'`. -/
theorem detectReportType_keyword_rule_witness :
    detectReportType (("hello world").data) = ("SEO").data :=
  (detectReportType_keyword_rule (("hello world").data)).2.2 (by decide)

/- ## C10: the report-type error branch is unreachable -/

/-- C10: the classifier always returns one of the two (non-empty) family
strings, so whenever first-page text extraction succeeds the
`"Could not detect report type (SEO or Google Ads)"` error can never be
recorded. -/
theorem reportTypeErrorUnreachable :
    (∀ text : Str,
      detectReportType text = ("Google Ads").data ∨ detectReportType text = ("SEO").data) ∧
    (∀ (text : Str) (tables : List Table) (fname : Str),
      ("Could not detect report type (SEO or Google Ads)").data ∉
        (extract_report_data (.ok (some text, tables)) fname).extractionErrors) := by
  refine ⟨detectReportType_cases, fun text tables fname h => ?_⟩
  simp only [extract_report_data, List.mem_append] at h
  rcases h with ((h | h) | h) | h
  · exact absurd (mem_ite_singleton h) (by decide)
  · exact absurd (mem_ite_singleton h) (by decide)
  · rw [if_neg (by simp [isFalsyOptStr, detectReportType_ne_nil text])] at h
    simp at h
  · have hm := mem_ite_singleton h
    have hhd : (("Missing KPIs: ").data ++
        joinCommaSpace ((expectedFieldsFor (some (detectReportType text))).filter
          (fun k => !dictHasKey k (extractKpis text tables (detectReportType text))))).head? =
        some 'M' := rfl
    rw [← hm] at hhd
    exact absurd (Option.some.inj hhd) (by decide)

/-- C10 witness: the forbidden error string is indeed absent on a concrete
successfully-read page. -/
theorem reportTypeErrorUnreachable_witness :
    ("Could not detect report type (SEO or Google Ads)").data ∉
      (extract_report_data (.ok (some (("hello").data), [])) (("r.pdf").data)).extractionErrors :=
  reportTypeErrorUnreachable.2 (("hello").data) [] (("r.pdf").data)

/- ## C1: exact-match precedence in `find_client` -/

/-- C1 counterexample: `find_client` also strips the roster-side
`Client-Name` before comparing. A roster entry `" Acme"` (leading space)
placed before an entry `"Acme"` is returned for the query `"acme"`, although
only the second entry's raw `Client-Name` equals the trimmed candidate
case-insensitively — so the claim's "first such roster entry" (first
raw-name match) is not what is returned. -/
theorem find_client_exact_rawname_cex :
    toLowerStr (Client.mk (("Acme").data) 1).clientName =
      toLowerStr (strip (("acme").data)) ∧
    ¬ toLowerStr (Client.mk ((" Acme").data) 0).clientName =
      toLowerStr (strip (("acme").data)) ∧
    find_client (fun _ _ => (0 : ℚ)) 85
        [Client.mk ((" Acme").data) 0, Client.mk (("Acme").data) 1]
        (("acme").data) = some (Client.mk ((" Acme").data) 0) ∧
    Client.mk ((" Acme").data) 0 ≠ Client.mk (("Acme").data) 1 := by
  exact ⟨by decide, by decide, by decide, by decide⟩

/-- C1 amended: for every roster (with the `load_clients` invariant that no
stored name strips to empty) containing a client whose **trimmed**
`Client-Name` equals the trimmed candidate case-insensitively, `find_client`
returns the first roster entry under that trimmed comparison, for every
scorer and threshold — the exact pass always pre-empts fuzzy scoring. -/
theorem find_client_exact_precedence
    (scorer : Str → Str → ℚ) (thr : ℚ) (roster : List Client) (name : Str)
    (hw : ∀ c ∈ roster, strip c.clientName ≠ [])
    (hex : ∃ c ∈ roster, toLowerStr (strip c.clientName) = toLowerStr (strip name)) :
    ∃ c₀ ∈ roster,
      roster.find? (fun c => exactPred (strip name) c) = some c₀ ∧
      find_client scorer thr roster name = some c₀ ∧
      toLowerStr (strip c₀.clientName) = toLowerStr (strip name) := by
  obtain ⟨c, hc, heq⟩ := hex
  have hb : strip name ≠ [] := by
    intro h0
    have h1 : toLowerStr (strip c.clientName) = [] := by rw [heq, h0]; rfl
    exact hw c hc (toLowerStr_eq_nil.mp h1)
  have hname : name ≠ [] := fun h => hb (by rw [h]; rfl)
  have hsome : (roster.find? (fun c => exactPred (strip name) c)).isSome := by
    rw [List.find?_isSome]
    exact ⟨c, hc, by simp [exactPred, heq]⟩
  obtain ⟨c₀, hfind⟩ := Option.isSome_iff_exists.mp hsome
  refine ⟨c₀, List.mem_of_find?_eq_some hfind, hfind, ?_, ?_⟩
  · simp only [find_client, if_neg hname, hfind]
  · have hp := List.find?_some hfind
    simpa [exactPred] using hp

/-- C1 witness: the amended theorem applied to a one-client roster and a
differently-cased query. -/
theorem find_client_exact_precedence_witness :
    ∃ c₀ ∈ [Client.mk (("Acme Corp").data) 0],
      [Client.mk (("Acme Corp").data) 0].find?
        (fun c => exactPred (strip (("ACME corp").data)) c) = some c₀ ∧
      find_client (fun _ _ => (0 : ℚ)) 85 [Client.mk (("Acme Corp").data) 0]
        (("ACME corp").data) = some c₀ ∧
      toLowerStr (strip c₀.clientName) = toLowerStr (strip (("ACME corp").data)) :=
  find_client_exact_precedence (fun _ _ => (0 : ℚ)) 85 _ _ (by decide) (by decide)

/- ## C6: threshold monotonicity of `find_all_matches` -/

/-- C6 counterexample: because of `min_score or self.fuzzy_threshold`, an
explicit `min_score=0` (falsy in Python) silently becomes the default
threshold 85. With the real `token_sort_ratio` scorer, the query `"abXd"`
scores 75 against the roster name `"abcd"`, so `min_score=0` returns nothing
while the higher threshold `min_score=70` returns the client: the claimed
superset relation fails at `t1 = 0 ≤ t2 = 70`. -/
theorem find_all_matches_monotonic_cex :
    (0 : Int) ≤ 70 ∧
    find_all_matches tokenSortRatio 85 [Client.mk (("abcd").data) 0]
        (("abXd").data) (some 70) = [(Client.mk (("abcd").data) 0, 75)] ∧
    find_all_matches tokenSortRatio 85 [Client.mk (("abcd").data) 0]
        (("abXd").data) (some 0) = [] := by
  exact ⟨by decide, by decide, by decide⟩

/-- C6 amended: for explicit thresholds `1 ≤ t1 ≤ t2` (i.e. excluding the
falsy value 0, which the code replaces by the default), every `(client,
score)` pair returned at `min_score = t2` is also returned at
`min_score = t1`, for every scorer. -/
theorem find_all_matches_threshold_monotonic
    (scorer : Str → Str → ℚ) (ft : Int) (roster : List Client) (name : Str)
    (t1 t2 : Int) (h1 : 1 ≤ t1) (h12 : t1 ≤ t2) (c : Client) (s : Int)
    (hmem : (c, s) ∈ find_all_matches scorer ft roster name (some t2)) :
    (c, s) ∈ find_all_matches scorer ft roster name (some t1) := by
  simp only [find_all_matches] at hmem ⊢
  split at hmem
  · simp at hmem
  · rename_i hA
    split at hmem
    · simp at hmem
    · rename_i hB
      rw [if_neg (by omega : ¬ t2 = 0)] at hmem
      rw [if_neg hA, if_neg hB, if_neg (by omega : ¬ t1 = 0)]
      have h2 := (List.perm_insertionSort _ _).mem_iff.mp hmem
      rw [List.mem_filterMap] at h2
      obtain ⟨p, hp, hres⟩ := h2
      have hp2 := (List.perm_insertionSort _ _).mem_iff.mp hp
      rw [List.mem_filter] at hp2
      obtain ⟨hpmem, hpge⟩ := hp2
      have hge1 : ((t1 : ℚ) ≤ p.2) := by
        have ha : ((t1 : ℚ) ≤ (t2 : ℚ)) := by exact_mod_cast h12
        have hb : ((t2 : ℚ) ≤ p.2) := by simpa using hpge
        exact le_trans ha hb
      refine (List.perm_insertionSort _ _).mem_iff.mpr ?_
      rw [List.mem_filterMap]
      refine ⟨p, ?_, hres⟩
      refine (List.perm_insertionSort _ _).mem_iff.mpr ?_
      rw [List.mem_filter]
      exact ⟨hpmem, by simpa using hge1⟩

/-- C6 witness: the amended monotonicity applied at `t1 = 70 ≤ t2 = 75` with
the `token_sort_ratio` scorer. -/
theorem find_all_matches_threshold_monotonic_witness :
    (1 : Int) ≤ 70 ∧ (70 : Int) ≤ 75 ∧
    (Client.mk (("abcd").data) 0, 75) ∈
      find_all_matches tokenSortRatio 85 [Client.mk (("abcd").data) 0]
        (("abXd").data) (some 70) :=
  ⟨by decide, by decide,
    find_all_matches_threshold_monotonic tokenSortRatio 85 _ _ 70 75
      (by decide) (by decide) _ _ (by decide)⟩

/- ## C4: date extraction on a date range -/

/-- C4: evaluation of `_extract_date` at the failing input. The pattern list
has no date-range pattern, so on `"January 1, 2025 - February 28, 2025"` the
word-date pattern captures the FIRST date of the range and the month label
is derived from the start date, `"January 2025"` — not from the end date
`"February 2025"` as the claim (and the repo's own test copy
`PDFExtractorTest._extract_date` in `test_kpi_extraction.py`, which
implements the range/end-date behaviour) requires. -/
theorem extractDate_range_uses_start_date :
    extractDate (("January 1, 2025 - February 28, 2025").data) =
      (some (("2025-01-01").data), some (("January 2025").data)) ∧
    (("January 2025").data : Str) ≠ ("February 2025").data := by
  exact ⟨by decide, by decide⟩

/- ## C9: totality and error accumulation of `extract_report_data` -/

/-- C9: `extract_report_data` is total (it returns a result record for every
source outcome). A read/parse exception becomes the single — hence last —
entry of `extraction_errors` (also when `extract_text()` returns `None` and
the classifier raises `AttributeError`), and on a successfully read page
each partial failure (falsy business name, falsy report month, missing
expected KPI fields) contributes its own error entry, while a fully
successful page yields no errors. -/
theorem extract_report_data_error_accumulation :
    (∀ e fname : Str,
      (extract_report_data (.error e) fname).extractionErrors = [failMsg fname e] ∧
      (extract_report_data (.error e) fname).extractionErrors.getLast? =
        some (failMsg fname e)) ∧
    (∀ (tables : List Table) (fname : Str),
      (extract_report_data (.ok (none, tables)) fname).extractionErrors =
        [failMsg fname attrErrMsg]) ∧
    (∀ (text : Str) (tables : List Table) (fname : Str),
      (isFalsyOptStr (extract_report_data (.ok (some text, tables)) fname).businessName =
          true →
        ("Could not extract business name").data ∈
          (extract_report_data (.ok (some text, tables)) fname).extractionErrors) ∧
      (isFalsyOptStr (extract_report_data (.ok (some text, tables)) fname).reportMonth =
          true →
        ("Could not extract report date/month").data ∈
          (extract_report_data (.ok (some text, tables)) fname).extractionErrors) ∧
      ((expectedFieldsFor (extract_report_data (.ok (some text, tables)) fname).reportType).filter
          (fun k => !dictHasKey k (extract_report_data (.ok (some text, tables)) fname).kpis) ≠
          [] →
        ("Missing KPIs: ").data ++
          joinCommaSpace
            ((expectedFieldsFor (extract_report_data (.ok (some text, tables)) fname).reportType).filter
              (fun k => !dictHasKey k (extract_report_data (.ok (some text, tables)) fname).kpis)) ∈
          (extract_report_data (.ok (some text, tables)) fname).extractionErrors) ∧
      (isFalsyOptStr (extract_report_data (.ok (some text, tables)) fname).businessName =
          false →
       isFalsyOptStr (extract_report_data (.ok (some text, tables)) fname).reportMonth =
          false →
       (expectedFieldsFor (extract_report_data (.ok (some text, tables)) fname).reportType).filter
          (fun k => !dictHasKey k (extract_report_data (.ok (some text, tables)) fname).kpis) =
          [] →
        (extract_report_data (.ok (some text, tables)) fname).extractionErrors = [])) := by
  refine ⟨fun e fname => ⟨rfl, rfl⟩, fun tables fname => rfl,
    fun text tables fname => ?_⟩
  dsimp only [extract_report_data]
  refine ⟨fun h => ?_, fun h => ?_, fun h => ?_, fun h1 h2 h3 => ?_⟩
  · rw [if_pos h]
    simp [List.mem_append]
  · rw [if_pos h]
    simp [List.mem_append]
  · rw [if_pos h]
    simp [List.mem_append]
  · rw [if_neg (by simp [h1]), if_neg (by simp [h2]),
      if_neg (by simp [isFalsyOptStr, detectReportType_ne_nil text]), if_neg (by simp [h3])]
    rfl

/-- C9 witness: a page whose text yields no parsable date records the
missing-month error. -/
theorem extract_report_data_error_accumulation_witness :
    ("Could not extract report date/month").data ∈
      (extract_report_data (.ok (some (("bounce rate").data), []))
        (("r.pdf").data)).extractionErrors :=
  (extract_report_data_error_accumulation.2.2 (("bounce rate").data) [] (("r.pdf").data)).2.1
    (by decide)

/- ## C3: the text KPI scanner picks the first strict argmax -/

theorem scanBestAux_inv (expected : List Str) (total : Nat) (lines : List Str) :
    ∀ (ls : List Str) (i : Nat) (best : Option Nat) (bc : Nat),
    (∀ m, ls.get? m = lines.get? (i + m)) →
    scanInv expected total lines i (best, bc) →
    scanInv expected total lines (i + ls.length)
      (scanBestAux expected total ls i best bc) := by
  intro ls
  induction ls with
  | nil =>
    intro i best bc _ hinv
    simpa [scanBestAux] using hinv
  | cons l rest ih =>
    intro i best bc hsub hinv
    have hline : lines.get? i = some l := by simpa using (hsub 0).symm
    have hsub' : ∀ m, rest.get? m = lines.get? (i + 1 + m) := by
      intro m
      have h := hsub (m + 1)
      simpa [Nat.add_comm, Nat.add_assoc, Nat.add_left_comm] using h
    have hlen : i + (l :: rest).length = (i + 1) + rest.length := by
      simp [Nat.add_comm, Nat.add_assoc, Nat.add_left_comm]
    rw [hlen]
    simp only [scanBestAux]
    split
    · rename_i hcond
      obtain ⟨hlt, hval⟩ := hcond
      refine ih (i + 1) (some i) (countFieldsLine expected l) hsub' ?_
      refine ⟨Nat.lt_succ_self i, hval, ⟨l, hline, rfl⟩, ?_, ?_⟩
      · intro j l' hj hv hg
        rcases Nat.lt_succ_iff_lt_or_eq.mp hj with hj' | hj'
        · cases best with
          | some k =>
            obtain ⟨_, _, _, hle, _⟩ := hinv
            exact le_of_lt (lt_of_le_of_lt (hle j l' hj' hv hg) hlt)
          | none =>
            obtain ⟨hbc0, hall⟩ := hinv
            rw [hall j l' hj' hv hg]
            exact Nat.zero_le _
        · subst hj'
          rw [hline] at hg
          cases hg
          exact Nat.le_refl _
      · intro j l' hj hv hg
        cases best with
        | some k =>
          obtain ⟨_, _, _, hle, _⟩ := hinv
          exact lt_of_le_of_lt (hle j l' hj hv hg) hlt
        | none =>
          obtain ⟨hbc0, hall⟩ := hinv
          rw [hall j l' hj hv hg]
          subst hbc0
          exact hlt
    · rename_i hcond
      refine ih (i + 1) best bc hsub' ?_
      have hnot : i + 2 < total → countFieldsLine expected l ≤ bc := by
        intro hv
        by_contra hgt
        exact hcond ⟨Nat.lt_of_not_le hgt, hv⟩
      cases best with
      | some k =>
        obtain ⟨hk, hkv, hwit, hle, hlt⟩ := hinv
        refine ⟨Nat.lt_succ_of_lt hk, hkv, hwit, ?_, hlt⟩
        intro j l' hj hv hg
        rcases Nat.lt_succ_iff_lt_or_eq.mp hj with hj' | hj'
        · exact hle j l' hj' hv hg
        · subst hj'
          rw [hline] at hg
          cases hg
          exact hnot hv
      | none =>
        obtain ⟨hbc0, hall⟩ := hinv
        refine ⟨hbc0, ?_⟩
        intro j l' hj hv hg
        rcases Nat.lt_succ_iff_lt_or_eq.mp hj with hj' | hj'
        · exact hall j l' hj' hv hg
        · subst hj'
          rw [hline] at hg
          cases hg
          have := hnot hv
          omega

/-- C3: the scan loop of `_extract_kpis_from_text` ends in a state
satisfying `scanInv` over the whole line list — the selected index is valid
(two lines follow it), carries the maximal field count over all valid
indices, every valid index before it counts strictly fewer fields (a later
tie never replaces it), and no index is selected only when every valid line
matches zero fields. The parser then runs on lines `[i, i+1, i+2]` exactly
when the best count reaches 3, and returns the empty mapping otherwise;
`_extract_kpis_from_text` itself is this scan applied to `text.split('\n')`. -/
theorem extractKpisFromText_first_argmax (expected : List Str) (lines : List Str) :
    scanInv expected lines.length lines lines.length (scanBest expected lines) ∧
    (∀ i bc, scanBest expected lines = (some i, bc) → 3 ≤ bc →
      extractKpisFromLines expected lines =
        parseLookerStudioKpis (lines.getD i []) (strip (lines.getD (i + 1) []))
          (strip (lines.getD (i + 2) [])) expected) ∧
    (∀ i bc, scanBest expected lines = (some i, bc) → bc < 3 →
      extractKpisFromLines expected lines = []) ∧
    (∀ bc, scanBest expected lines = (none, bc) →
      extractKpisFromLines expected lines = []) ∧
    (∀ text : Str, extractKpisFromText text expected =
      extractKpisFromLines expected (splitNl text)) := by
  refine ⟨?_, ?_, ?_, ?_, fun _ => rfl⟩
  · have h0 : scanInv expected lines.length lines 0 (none, 0) :=
      ⟨rfl, fun j _ hj _ _ => absurd hj (Nat.not_lt_zero j)⟩
    have hsub : ∀ m, lines.get? m = lines.get? (0 + m) := by simp
    have h := scanBestAux_inv expected lines.length lines lines 0 none 0 hsub h0
    simpa [scanBest] using h
  · intro i bc h h3
    unfold extractKpisFromLines
    rw [h]
    simp [h3]
  · intro i bc h h3
    unfold extractKpisFromLines
    rw [h]
    simp [Nat.not_le.mpr h3]
  · intro bc h
    unfold extractKpisFromLines
    rw [h]

/-- C3 witness: on a concrete three-line block whose header matches all
three expected fields, the scan selects index 0 with count 3 and the parser
runs on the triplet. -/
theorem extractKpisFromText_first_argmax_witness :
    scanBest [("Sessions").data, ("Active users").data, ("New users").data]
        [("Sessions Active users New users").data, ("1 2 3").data, ("1% 2% 3%").data] =
      (some 0, 3) ∧
    extractKpisFromLines [("Sessions").data, ("Active users").data, ("New users").data]
        [("Sessions Active users New users").data, ("1 2 3").data, ("1% 2% 3%").data] =
      parseLookerStudioKpis (("Sessions Active users New users").data)
        (strip (("1 2 3").data)) (strip (("1% 2% 3%").data))
        [("Sessions").data, ("Active users").data, ("New users").data] := by
  refine ⟨by decide, ?_⟩
  have h := (extractKpisFromText_first_argmax
    [("Sessions").data, ("Active users").data, ("New users").data]
    [("Sessions Active users New users").data, ("1 2 3").data, ("1% 2% 3%").data]).2.1
    0 3 (by decide) (by decide)
  simpa using h

/- ## Membership lemmas for the KPI dictionaries (C7, C8) -/

theorem mem_dictInsert {pr : Str × KpiVal} {k : Str} {v : KpiVal} :
    ∀ {m : KpiMap}, pr ∈ dictInsert k v m → pr = (k, v) ∨ pr ∈ m := by
  intro m
  induction m with
  | nil => exact fun h => Or.inl (List.mem_singleton.mp h)
  | cons p rest ih =>
    simp only [dictInsert]
    split
    · intro h
      rcases List.mem_cons.mp h with h | h
      · exact Or.inl h
      · exact Or.inr (List.mem_cons_of_mem p h)
    · intro h
      rcases List.mem_cons.mp h with h | h
      · exact Or.inr (h ▸ List.mem_cons_self p rest)
      · rcases ih h with h | h
        · exact Or.inl h
        · exact Or.inr (List.mem_cons_of_mem p h)

theorem mem_rowUpdate {expected : List Str} {m : KpiMap} {row : Row}
    {pr : Str × KpiVal} (h : pr ∈ rowUpdate expected m row) :
    (pr.1 ∈ expected ∧ ∃ s, pr.2 = KpiVal.plain s) ∨ pr ∈ m := by
  unfold rowUpdate at h
  split at h
  · dsimp only at h
    split at h
    · rename_i f hfind
      split at h
      · rcases mem_dictInsert h with h | h
        · subst h
          exact Or.inl ⟨List.mem_of_find?_eq_some hfind, _, rfl⟩
        · exact Or.inr h
      · exact Or.inr h
    · exact Or.inr h
  · exact Or.inr h

theorem mem_tableFold {expected : List Str} {pr : Str × KpiVal} :
    ∀ {table : Table} {m : KpiMap}, pr ∈ table.foldl (rowUpdate expected) m →
      (pr.1 ∈ expected ∧ ∃ s, pr.2 = KpiVal.plain s) ∨ pr ∈ m := by
  intro table
  induction table with
  | nil => exact fun h => Or.inr h
  | cons row rest ih =>
    intro m h
    rcases ih h with h | h
    · exact Or.inl h
    · exact mem_rowUpdate h

theorem mem_extractKpisFromTables {tables : List Table} {expected : List Str}
    {pr : Str × KpiVal} (h : pr ∈ extractKpisFromTables tables expected) :
    pr.1 ∈ expected ∧ ∃ s, pr.2 = KpiVal.plain s := by
  unfold extractKpisFromTables at h
  have haux : ∀ (ts : List Table) (m : KpiMap),
      pr ∈ ts.foldl (fun kpis table => table.foldl (rowUpdate expected) kpis) m →
      (pr.1 ∈ expected ∧ ∃ s, pr.2 = KpiVal.plain s) ∨ pr ∈ m := by
    intro ts
    induction ts with
    | nil => exact fun m h => Or.inr h
    | cons t ts ihts =>
      intro m h
      rcases ihts _ h with h | h
      · exact Or.inl h
      · exact mem_tableFold h
  rcases haux tables [] h with h | h
  · exact h
  · simp at h

theorem mem_assignLoop {values changes : List Str} {pr : Str × KpiVal} :
    ∀ {rest : List (Nat × Str)} {idx : Nat} {m : KpiMap},
      pr ∈ assignLoop values changes idx rest m →
      (pr.1 ∈ rest.map Prod.snd ∧ ∃ a b, pr.2 = KpiVal.entry a b) ∨ pr ∈ m := by
  intro rest
  induction rest with
  | nil => exact fun h => Or.inr h
  | cons pf rest ih =>
    intro idx m h
    rcases ih h with h | h
    · exact Or.inl ⟨List.mem_cons_of_mem _ h.1, h.2⟩
    · split at h
      · rcases mem_dictInsert h with h | h
        · subst h
          exact Or.inl ⟨List.mem_cons_self _ _, _, _, rfl⟩
        · exact Or.inr h
      · exact Or.inr h

theorem fieldPositions_snd_sublist (headerLine : Str) (expected : List Str) :
    ((fieldPositions headerLine expected).map Prod.snd).Sublist expected := by
  induction expected with
  | nil => simp [fieldPositions]
  | cons f rest ih =>
    simp only [fieldPositions, List.filterMap_cons]
    split
    · exact (show ((fieldPositions headerLine rest).map Prod.snd).Sublist (f :: rest) from
        ih.cons f)
    · rename_i pf hpf
      have hsnd : pf.2 = f := by
        rcases Option.map_eq_some'.mp hpf with ⟨p, _, hp⟩
        rw [← hp]
      simp only [List.map_cons, hsnd]
      exact ih.cons₂ f

theorem mem_parseLookerStudioKpis {headerLine valuesLine changesLine : Str}
    {expected : List Str} {pr : Str × KpiVal}
    (h : pr ∈ parseLookerStudioKpis headerLine valuesLine changesLine expected) :
    pr.1 ∈ expected ∧ ∃ a b, pr.2 = KpiVal.entry a b := by
  unfold parseLookerStudioKpis at h
  rcases mem_assignLoop h with ⟨h1, h2⟩ | h
  · refine ⟨?_, h2⟩
    have hperm : List.Perm
        ((sortPairs (fieldPositions headerLine expected)).map Prod.snd)
        ((fieldPositions headerLine expected).map Prod.snd) :=
      (List.perm_insertionSort _ _).map Prod.snd
    exact (fieldPositions_snd_sublist headerLine expected).subset
      (hperm.mem_iff.mp h1)
  · simp at h

theorem mem_extractKpisFromLines {expected lines : List Str} {pr : Str × KpiVal}
    (h : pr ∈ extractKpisFromLines expected lines) :
    pr.1 ∈ expected ∧ ∃ a b, pr.2 = KpiVal.entry a b := by
  unfold extractKpisFromLines at h
  split at h
  · split at h
    · exact mem_parseLookerStudioKpis h
    · simp at h
  · simp at h

theorem mem_mergeFold {pr : Str × KpiVal} :
    ∀ {l : List (Str × KpiVal)} {m : KpiMap},
      pr ∈ l.foldl (fun m p => if dictHasKey p.1 m then m else m ++ [p]) m →
      pr ∈ m ∨ pr ∈ l := by
  intro l
  induction l with
  | nil => exact fun h => Or.inl h
  | cons p rest ih =>
    intro m h
    rcases ih h with h | h
    · change pr ∈ (if dictHasKey p.1 m then m else m ++ [p]) at h
      split at h
      · exact Or.inl h
      · rcases List.mem_append.mp h with h | h
        · exact Or.inl h
        · exact Or.inr (by simpa using Or.inl (List.mem_singleton.mp h))
    · exact Or.inr (List.mem_cons_of_mem p h)

theorem mem_extractKpis {text : Str} {tables : List Table} {rt : Str}
    {pr : Str × KpiVal} (h : pr ∈ extractKpis text tables rt) :
    pr.1 ∈ (if rt = ("SEO").data then seoKpiFields else googleAdsKpiFields) := by
  unfold extractKpis at h
  dsimp only at h
  have core : ∀ (E : List Str),
      pr ∈ (if (if tables = [] then [] else extractKpisFromTables tables E).length <
              E.length then
          List.foldl (fun m p => if dictHasKey p.1 m then m else m ++ [p])
            (if tables = [] then [] else extractKpisFromTables tables E)
            (extractKpisFromText text E)
        else (if tables = [] then [] else extractKpisFromTables tables E)) →
      pr.1 ∈ E := by
    intro E hE
    split at hE
    · split at hE
      · rcases mem_mergeFold hE with hE | hE
        · simp at hE
        · exact (mem_extractKpisFromLines hE).1
      · simp at hE
    · split at hE
      · rcases mem_mergeFold hE with hE | hE
        · exact (mem_extractKpisFromTables hE).1
        · exact (mem_extractKpisFromLines hE).1
      · exact (mem_extractKpisFromTables hE).1
  by_cases hrt : rt = ("SEO").data
  · rw [if_pos hrt] at h ⊢
    exact core _ h
  · rw [if_neg hrt] at h ⊢
    exact core _ h

/- ## C7: schema exclusivity of the KPI keys -/

/-- C7: every key of the mapping produced by `_extract_kpis` belongs to the
field list selected by the report type, and since the two schemas share no
field name, a Google-Ads-selected extraction never contains an SEO field and
vice versa. -/
theorem extractKpis_schema_exclusive (text : Str) (tables : List Table) (rt : Str)
    (k : Str) (v : KpiVal) (hmem : (k, v) ∈ extractKpis text tables rt) :
    k ∈ (if rt = ("SEO").data then seoKpiFields else googleAdsKpiFields) ∧
    (rt = ("SEO").data → k ∉ googleAdsKpiFields) ∧
    (rt ≠ ("SEO").data → k ∉ seoKpiFields) := by
  have hk := mem_extractKpis hmem
  have hdisj : ∀ x ∈ seoKpiFields, x ∉ googleAdsKpiFields := by decide
  refine ⟨hk, fun hseo => ?_, fun hga => ?_⟩
  · rw [if_pos hseo] at hk
    exact hdisj k hk
  · rw [if_neg hga] at hk
    intro hin
    exact hdisj k hin hk

/-- C7 witness: a concrete SEO extraction containing the key `"Sessions"`. -/
theorem extractKpis_schema_exclusive_witness :
    ("Sessions").data ∈
      (if (("SEO").data : Str) = ("SEO").data then seoKpiFields else googleAdsKpiFields) ∧
    ((("SEO").data : Str) = ("SEO").data → ("Sessions").data ∉ googleAdsKpiFields) ∧
    ((("SEO").data : Str) ≠ ("SEO").data → ("Sessions").data ∉ seoKpiFields) :=
  extractKpis_schema_exclusive []
    [[[some (("Sessions").data), some (("100").data)]]] (("SEO").data)
    (("Sessions").data) (KpiVal.plain (("100").data)) (by decide)

/- ## C8: shapes of the KPI values -/

/-- C8 counterexample: a page whose table fills the `Sessions` field stores
a PLAIN string (`kpis[kpi_field] = metric_value` in
`_extract_kpis_from_tables`), not a `{'value', 'change'}` record — the
claimed uniform record shape fails for table-derived entries. -/
theorem kpi_value_shape_cex :
    ((("Sessions").data, KpiVal.plain (("100").data)) ∈
      extractKpis [] [[[some (("Sessions").data), some (("100").data)]]]
        (("SEO").data)) ∧
    ∀ a b, KpiVal.plain (("100").data) ≠ KpiVal.entry a b := by
  exact ⟨by decide, fun a b h => KpiVal.noConfusion h⟩

/-- C8 amended: values filled by the positional text fallback
(`_parse_looker_studio_kpis`) are always `{value, change}` records, while
values filled from table structures (`_extract_kpis_from_tables`) are always
plain strings; the downstream email generator branches on the shape. -/
theorem kpi_value_shapes :
    (∀ (tables : List Table) (expected : List Str) (k : Str) (v : KpiVal),
      (k, v) ∈ extractKpisFromTables tables expected → ∃ s, v = KpiVal.plain s) ∧
    (∀ (headerLine valuesLine changesLine : Str) (expected : List Str)
        (k : Str) (v : KpiVal),
      (k, v) ∈ parseLookerStudioKpis headerLine valuesLine changesLine expected →
        ∃ a b, v = KpiVal.entry a b) :=
  ⟨fun _ _ _ _ h => (mem_extractKpisFromTables h).2,
   fun _ _ _ _ _ _ h => (mem_parseLookerStudioKpis h).2⟩

/-- C8 witness: the two shape statements applied at concrete extractions. -/
theorem kpi_value_shapes_witness :
    (∃ s, KpiVal.plain (("100").data) = KpiVal.plain s) ∧
    (∃ a b, KpiVal.entry (("22,837").data) (some (("11.8%").data)) = KpiVal.entry a b) :=
  ⟨kpi_value_shapes.1 [[[some (("Sessions").data), some (("100").data)]]]
      seoKpiFields (("Sessions").data) _ (by decide),
   kpi_value_shapes.2 (("Sessions Active users New users").data)
      (("22,837 14,350 13,703").data) (("11.8% 14.8% 15.3%").data)
      [("Sessions").data, ("Active users").data, ("New users").data]
      (("Sessions").data) _ (by decide)⟩

/- ## Order lemmas for the `(position, field)` sort (C2) -/

theorem lexLeCh_total : ∀ a b : Str, lexLeCh a b = true ∨ lexLeCh b a = true := by
  intro a
  induction a with
  | nil => intro b; left; rfl
  | cons x xs ih =>
    intro b
    cases b with
    | nil => right; rfl
    | cons y ys =>
      simp only [lexLeCh]
      rcases Nat.lt_trichotomy x.toNat y.toNat with h | h | h
      · left
        rw [if_pos h]
      · rw [if_neg (by omega), if_neg (by omega), if_neg (by omega), if_neg (by omega)]
        exact ih ys
      · right
        rw [if_pos h]

theorem lexLeCh_trans :
    ∀ a b c : Str, lexLeCh a b = true → lexLeCh b c = true → lexLeCh a c = true := by
  intro a
  induction a with
  | nil => intro b c _ _; rfl
  | cons x xs ih =>
    intro b c hab hbc
    cases b with
    | nil => simp [lexLeCh] at hab
    | cons y ys =>
      cases c with
      | nil => simp [lexLeCh] at hbc
      | cons z zs =>
        simp only [lexLeCh] at hab hbc ⊢
        rcases Nat.lt_trichotomy x.toNat y.toNat with h1 | h1 | h1 <;>
          rcases Nat.lt_trichotomy y.toNat z.toNat with h2 | h2 | h2 <;>
          [skip; skip; skip; skip; skip; skip; skip; skip; skip] <;>
          first
          | (rw [if_pos (by omega)])
          | (rw [if_neg (by omega), if_neg (by omega)]
             rw [if_neg (by omega), if_neg (by omega)] at hab hbc
             exact ih ys zs hab hbc)
          | (rw [if_neg (by omega), if_pos (by omega)] at hab; exact absurd hab (by simp))
          | (rw [if_neg (by omega), if_pos (by omega)] at hbc; exact absurd hbc (by simp))

theorem pairLe_total : ∀ p q : Nat × Str, pairLe p q = true ∨ pairLe q p = true := by
  intro p q
  unfold pairLe
  rcases Nat.lt_trichotomy p.1 q.1 with h | h | h
  · left
    rw [if_pos h]
  · rw [if_neg (by omega), if_neg (by omega), if_neg (by omega), if_neg (by omega)]
    exact lexLeCh_total p.2 q.2
  · right
    rw [if_pos h]

theorem pairLe_trans : ∀ p q r : Nat × Str,
    pairLe p q = true → pairLe q r = true → pairLe p r = true := by
  intro p q r hpq hqr
  unfold pairLe at hpq hqr ⊢
  rcases Nat.lt_trichotomy p.1 q.1 with h1 | h1 | h1 <;>
    rcases Nat.lt_trichotomy q.1 r.1 with h2 | h2 | h2 <;>
    first
    | (rw [if_pos (by omega)])
    | (rw [if_neg (by omega), if_neg (by omega)]
       rw [if_neg (by omega), if_neg (by omega)] at hpq hqr
       exact lexLeCh_trans p.2 q.2 r.2 hpq hqr)
    | (rw [if_neg (by omega), if_pos (by omega)] at hpq; exact absurd hpq (by simp))
    | (rw [if_neg (by omega), if_pos (by omega)] at hqr; exact absurd hqr (by simp))

theorem pairLe_pos_le {p q : Nat × Str} (h : pairLe p q = true) : p.1 ≤ q.1 := by
  unfold pairLe at h
  rcases Nat.lt_trichotomy p.1 q.1 with h1 | h1 | h1
  · omega
  · omega
  · rw [if_neg (by omega), if_pos (by omega)] at h
    exact absurd h (by simp)

/- ## Dictionary lookup lemmas (C2) -/

theorem dictGet_dictInsert (f g : Str) (v : KpiVal) (m : KpiMap) :
    dictGet f (dictInsert g v m) = if g = f then some v else dictGet f m := by
  induction m with
  | nil => rfl
  | cons p rest ih =>
    simp only [dictInsert]
    split
    · rename_i hpg
      by_cases hgf : g = f
      · simp only [dictGet]
        rw [if_pos hgf, if_pos hgf]
      · simp only [dictGet]
        rw [if_neg hgf, if_neg hgf, if_neg (by rw [hpg]; exact hgf)]
    · rename_i hpg
      by_cases hpf : p.1 = f
      · have hgf : ¬ g = f := fun hg => hpg (by rw [hg, hpf])
        simp only [dictGet]
        rw [if_pos hpf, if_neg hgf, if_pos hpf]
      · simp only [dictGet]
        rw [if_neg hpf, if_neg hpf, ih]

theorem dictGet_assignLoop_skip {values changes : List Str} {f : Str} :
    ∀ {rest : List (Nat × Str)} {idx : Nat} {m : KpiMap},
      (∀ pf ∈ rest, pf.2 ≠ f) →
      dictGet f (assignLoop values changes idx rest m) = dictGet f m := by
  intro rest
  induction rest with
  | nil => intro idx m _; rfl
  | cons pf rest ih =>
    intro idx m hne
    simp only [assignLoop]
    rw [ih (fun q hq => hne q (List.mem_cons_of_mem _ hq))]
    split
    · rw [dictGet_dictInsert, if_neg (hne pf (List.mem_cons_self _ _))]
    · rfl

theorem dictGet_assignLoop {values changes : List Str} {f : Str} :
    ∀ {rest : List (Nat × Str)} {idx k p : Nat} {m : KpiMap},
      rest.get? k = some (p, f) →
      (∀ j q, rest.get? j = some q → q.2 = f → j = k) →
      dictGet f (assignLoop values changes idx rest m) =
        if idx + k < values.length then
          some (KpiVal.entry (values.getD (idx + k) []) (changes.get? (idx + k)))
        else dictGet f m := by
  intro rest
  induction rest with
  | nil => intro idx k p m h _; simp at h
  | cons pf rest ih =>
    intro idx k p m hget huniq
    cases k with
    | zero =>
      have hpf : pf = (p, f) := by simpa using hget
      subst hpf
      have hrest : ∀ q ∈ rest, q.2 ≠ f := by
        intro q hq hqf
        obtain ⟨j, hj⟩ := List.mem_iff_get?.mp hq
        have hj0 := huniq (j + 1) q (by simpa using hj) hqf
        omega
      simp only [assignLoop]
      rw [dictGet_assignLoop_skip hrest]
      simp only [Nat.add_zero]
      by_cases hv : idx < values.length
      · rw [if_pos hv, if_pos hv, dictGet_dictInsert, if_pos rfl]
      · rw [if_neg hv, if_neg hv]
    | succ k' =>
      have hne : pf.2 ≠ f := by
        intro hq
        have h0 := huniq 0 pf (by simp) hq
        omega
      simp only [assignLoop]
      have hget' : rest.get? k' = some (p, f) := by simpa using hget
      have huniq' : ∀ j q, rest.get? j = some q → q.2 = f → j = k' := by
        intro j q hj hqf
        have hj1 := huniq (j + 1) q (by simpa using hj) hqf
        omega
      rw [ih hget' huniq']
      have harith : idx + 1 + k' = idx + (k' + 1) := by omega
      rw [harith]
      split
      · rfl
      · split
        · rw [dictGet_dictInsert, if_neg hne]
        · rfl

theorem sortPairs_snd_nodup {headerLine : Str} {expected : List Str}
    (h : expected.Nodup) :
    ((sortPairs (fieldPositions headerLine expected)).map Prod.snd).Nodup := by
  have hperm : List.Perm
      ((sortPairs (fieldPositions headerLine expected)).map Prod.snd)
      ((fieldPositions headerLine expected).map Prod.snd) :=
    (List.perm_insertionSort _ _).map Prod.snd
  exact hperm.nodup_iff.mpr ((fieldPositions_snd_sublist _ _).nodup h)

theorem nodup_snd_uniq {L : List (Nat × Str)} (h : (L.map Prod.snd).Nodup)
    {k p : Nat} {f : Str} (hk : L.get? k = some (p, f)) :
    ∀ j q, L.get? j = some q → q.2 = f → j = k := by
  intro j q hj hq
  have h1 : (L.map Prod.snd).get? j = some f := by
    rw [List.get?_map, hj]
    simp [hq]
  have h2 : (L.map Prod.snd).get? k = some f := by
    rw [List.get?_map, hk]
    rfl
  have hlen : j < (L.map Prod.snd).length := by
    by_contra hge
    rw [List.get?_eq_none.mpr (by omega)] at h1
    cases h1
  refine List.getElem?_inj hlen h ?_
  rw [← List.get?_eq_getElem?, ← List.get?_eq_getElem?, h1, h2]

theorem dictGet_parse_not_in_header {headerLine valuesLine changesLine f : Str}
    {expected : List Str}
    (hnf : findSub (toLowerStr headerLine) (toLowerStr f) = none) :
    dictGet f (parseLookerStudioKpis headerLine valuesLine changesLine expected) =
      none := by
  unfold parseLookerStudioKpis
  rw [dictGet_assignLoop_skip ?hne]
  · rfl
  case hne =>
    intro pf hpf hsnd
    have hpf2 : pf ∈ fieldPositions headerLine expected :=
      (List.perm_insertionSort _ _).mem_iff.mp hpf
    unfold fieldPositions at hpf2
    rw [List.mem_filterMap] at hpf2
    obtain ⟨g, _, hopt⟩ := hpf2
    rcases Option.map_eq_some'.mp hopt with ⟨pos, hfind, hpair⟩
    have hgf : g = f := by
      rw [← hpair] at hsnd
      exact hsnd
    rw [hgf, hnf] at hfind
    cases hfind

/- ## C2: the positional KPI parser -/

/-- C2: the positional three-line KPI parser. First, the concrete example of
the spec evaluates to exactly the claimed mapping (in header order). Second,
in general (for duplicate-free expected-field lists): the `(position,
field)` pairs are sorted ascending by header position and are a permutation
of the found pairs; the field at sorted index `k` maps to value token `k`
with change token `k` (`None` when the change list is shorter) and receives
no entry when `k` is beyond the value-token count; a field not found in the
header receives no entry. -/
theorem parseLookerStudioKpis_positional :
    (parseLookerStudioKpis (("Sessions Active users New users").data)
        (("22,837 14,350 13,703").data) (("11.8% 14.8% 15.3%").data)
        [("Sessions").data, ("Active users").data, ("New users").data] =
      [(("Sessions").data, KpiVal.entry (("22,837").data) (some (("11.8%").data))),
       (("Active users").data, KpiVal.entry (("14,350").data) (some (("14.8%").data))),
       (("New users").data, KpiVal.entry (("13,703").data) (some (("15.3%").data)))]) ∧
    (∀ (headerLine valuesLine changesLine : Str) (expected : List Str),
      expected.Nodup →
      List.Sorted (fun p q : Nat × Str => p.1 ≤ q.1)
        (sortPairs (fieldPositions headerLine expected)) ∧
      List.Perm (sortPairs (fieldPositions headerLine expected))
        (fieldPositions headerLine expected) ∧
      (∀ (k p : Nat) (f : Str),
        (sortPairs (fieldPositions headerLine expected)).get? k = some (p, f) →
        dictGet f (parseLookerStudioKpis headerLine valuesLine changesLine expected) =
          if k < (findValues valuesLine).length then
            some (KpiVal.entry ((findValues valuesLine).getD k [])
              ((findChanges changesLine).get? k))
          else none) ∧
      (∀ f ∈ expected, findSub (toLowerStr headerLine) (toLowerStr f) = none →
        dictGet f (parseLookerStudioKpis headerLine valuesLine changesLine expected) =
          none)) := by
  refine ⟨by decide, fun headerLine valuesLine changesLine expected hnd =>
    ⟨?_, List.perm_insertionSort _ _, ?_, fun f _ hnf => dictGet_parse_not_in_header hnf⟩⟩
  · haveI : IsTotal (Nat × Str) (fun p q => pairLe p q = true) := ⟨pairLe_total⟩
    haveI : IsTrans (Nat × Str) (fun p q => pairLe p q = true) := ⟨pairLe_trans⟩
    have hs := List.sorted_insertionSort (fun p q : Nat × Str => pairLe p q = true)
      (fieldPositions headerLine expected)
    exact hs.imp (fun hab => pairLe_pos_le hab)
  · intro k p f hget
    have huniq := nodup_snd_uniq (sortPairs_snd_nodup hnd) hget
    unfold parseLookerStudioKpis
    rw [dictGet_assignLoop hget huniq]
    simp [dictGet]

/-- C2 witness: the lookup rule applied at sorted index 1 of the concrete
example (the `"Active users"` field at header position 9). -/
theorem parseLookerStudioKpis_positional_witness :
    dictGet (("Active users").data)
      (parseLookerStudioKpis (("Sessions Active users New users").data)
        (("22,837 14,350 13,703").data) (("11.8% 14.8% 15.3%").data)
        [("Sessions").data, ("Active users").data, ("New users").data]) =
      if 1 < (findValues (("22,837 14,350 13,703").data)).length then
        some (KpiVal.entry ((findValues (("22,837 14,350 13,703").data)).getD 1 [])
          ((findChanges (("11.8% 14.8% 15.3%").data)).get? 1))
      else none :=
  ((parseLookerStudioKpis_positional.2 (("Sessions Active users New users").data)
    (("22,837 14,350 13,703").data) (("11.8% 14.8% 15.3%").data)
    [("Sessions").data, ("Active users").data, ("New users").data]
    (by decide)).2.2.1 1 9 (("Active users").data) (by decide))

end EmailReports
